import Mathlib

/-!
Verification of the PDF page rasterizer `convert_pdf_to_images` from
`streamlit_app.py` (PDF-to-jpg-Flipbook).

The Python routine is shallowly embedded as a pure state-passing function:
  * the filesystem is an explicit value (`FS`) threaded through the call;
  * the PDF library (`fitz`) is an oracle `parsePdf : List Nat → Option PdfDoc`
    describing how `fitz.open` behaves on the persisted bytes, together with a
    `PdfDoc` value describing the page count and the per-page behaviour of the
    rendering pipeline (which steps raise exceptions, and the native page size);
  * Python exceptions become explicit control flow: the `ConvertOut.raised`
    constructor is an exception escaping the routine, per-page exceptions are
    the per-page failure flags of `PageSpec`;
  * floating point size arithmetic (`dpi/72` scaling, PIL `thumbnail`) is
    modelled by exact integer arithmetic: `round(a/b)` on non-negative
    rationals is `(2*a + b) / (2*b)` in `Nat`, and PIL's aspect-ratio
    comparisons are cross-multiplied to integer comparisons.
-/

namespace Flipbook

/-! ### Decimal rendering of naturals (model of Python `str(int)`) -/

/-- The ASCII character of a decimal digit. -/
def digitChar (d : Nat) : Char := Char.ofNat (48 + d)

/-- Fuel-driven decimal digit list of a natural number, most significant first.
Structural in the fuel so that it reduces in the kernel. -/
def decCharsAux : Nat → Nat → List Char
  | 0, _ => []
  | fuel + 1, n =>
      if n < 10 then [digitChar n]
      else decCharsAux fuel (n / 10) ++ [digitChar (n % 10)]

/-- Decimal digit list of `n`, most significant digit first. -/
def decChars (n : Nat) : List Char := decCharsAux (n + 1) n

/-- Decimal rendering of a natural number, modelling Python `str(int)`. -/
def natStr (n : Nat) : String := ⟨decChars n⟩

/-! ### Paths and the filesystem -/

/-- Model of `os.path.join` on the two-component joins the routine performs. -/
def joinPath (a b : String) : String := a ++ "/" ++ b

/-- Contents of a file in the modelled filesystem. -/
inductive FileData
  | pdf (bytes : List Nat)
  | jpeg (width height quality : Nat)
deriving DecidableEq, Repr

/-- A filesystem: the set of directories known to exist and an association
list of files (path, contents). -/
structure FS where
  dirs : List String
  files : List (String × FileData)
deriving DecidableEq, Repr

/-- Lookup of the file stored at a path. -/
def findFile : List (String × FileData) → String → Option FileData
  | [], _ => none
  | e :: rest, p => if e.1 = p then some e.2 else findFile rest p

def FS.read (fs : FS) (p : String) : Option FileData := findFile fs.files p

/-- Writing a file truncates any previous file at the same path
(Python `open(path, 'wb')`). -/
def FS.write (fs : FS) (p : String) (d : FileData) : FS :=
  ⟨fs.dirs, (p, d) :: fs.files.filter (fun e => e.1 ≠ p)⟩

/-- Model of `os.makedirs(d, exist_ok=True)`. -/
def FS.makedirs (fs : FS) (d : String) : FS :=
  if d ∈ fs.dirs then fs else ⟨d :: fs.dirs, fs.files⟩

/-- The fixed name the uploaded PDF is persisted under
(`os.path.join(temp_folder, 'uploaded.pdf')`). -/
def pdfPath (tempFolder : String) : String := joinPath tempFolder "uploaded.pdf"

/-- The artifact path of the page with 1-based ordinal `n`
(`os.path.join(temp_folder, f'page_{n}.jpg')`). -/
def pagePath (tempFolder : String) (n : Nat) : String :=
  joinPath tempFolder ("page_" ++ natStr n ++ ".jpg")

/-! ### The PDF library oracle -/

/-- Behaviour of one page of an opened document under the per-page pipeline.
`w0`/`h0` are the page's native size in points (the media box at 72 dpi).
`failBeforeSave` models an exception raised in `pdf_document[page_num]`,
`page.get_pixmap`, `Image.frombytes` or `image.thumbnail`; `saveFails` models
an exception raised in `image.save`. -/
structure PageSpec where
  w0 : Nat
  h0 : Nat
  failBeforeSave : Bool
  saveFails : Bool
deriving DecidableEq, Repr

/-- A page produces an artifact iff no pipeline step raises. -/
def PageSpec.succeeds (p : PageSpec) : Bool := !p.failBeforeSave && !p.saveFails

/-- An opened document handle: its reported page count, the behaviour of each
page, and whether `close()` raises. -/
structure PdfDoc where
  pageCount : Nat
  pages : Nat → PageSpec
  closeFails : Bool

/-! ### Size arithmetic -/

/-- Rounding of the non-negative rational `a / b` to the nearest natural
(`round(a/b) = floor(a/b + 1/2) = (2*a + b) / (2*b)` in exact arithmetic). -/
def natRound (a b : Nat) : Nat := (2 * a + b) / (2 * b)

/-- Pixel extent of one axis after rasterizing at `dpi`: the native point
size `x` scaled by the factor `dpi / 72`
(`page.get_pixmap(matrix=fitz.Matrix(dpi/72, dpi/72))`). -/
def scaleDim (x dpi : Nat) : Nat := natRound (x * dpi) 72

/-- Ceiling division. -/
def cdiv (a b : Nat) : Nat := (a + b - 1) / b

/-- PIL `round_aspect` for the width branch of `thumbnail`: the candidates are
`floor(m*w/h)` and `ceil(m*w/h)`, and the one minimizing
`abs(w/h - n/m)` is kept (the floor on ties, as Python `min` does); the
comparison is cross-multiplied by `h*m`. The result is at least 1. -/
def roundAspectW (w h m : Nat) : Nat :=
  let f := m * w / h
  let c := cdiv (m * w) h
  max (if Nat.dist (w * m) (f * h) ≤ Nat.dist (w * m) (c * h) then f else c) 1

/-- PIL `round_aspect` for the height branch of `thumbnail`: the candidates
are `floor(m*h/w)` and `ceil(m*h/w)`, with key `0` at `n = 0` and
`abs(w/h - m/n)` otherwise; the comparison of the keys at `n1`, `n2` is
cross-multiplied by `h*n1*n2`. The result is at least 1. -/
def roundAspectH (w h m : Nat) : Nat :=
  let f := m * h / w
  let c := cdiv (m * h) w
  let keyLe : Bool :=
    if f = 0 then true
    else if c = 0 then Nat.dist (w * f) (m * h) = 0
    else Nat.dist (w * f) (m * h) * c ≤ Nat.dist (w * c) (m * h) * f
  max (if keyLe then f else c) 1

/-- Dimensions produced by PIL `Image.thumbnail((m, m), ...)` on a `w × h`
image: unchanged when the box already contains the image, otherwise the image
is scaled to fit the box preserving the aspect ratio `w/h`; the branch test
`m/m >= w/h` is cross-multiplied by `h*m`. -/
def thumbnailDims (w h m : Nat) : Nat × Nat :=
  if m ≥ w ∧ m ≥ h then (w, h)
  else if h * m ≥ w * m then (roundAspectW w h m, m)
  else (m, roundAspectH w h m)

/-- Dimensions of the saved artifact: the rendered image is downscaled only
when its larger dimension exceeds `maxImageSize`
(`if max(image.width, image.height) > max_image_size: image.thumbnail(...)`). -/
def resizeStep (w h m : Nat) : Nat × Nat :=
  if max w h > m then thumbnailDims w h m else (w, h)

/-- Dimensions of the artifact saved for page `p` at the given `dpi` and
`maxImageSize`: rasterize both axes at scale `dpi/72`, then bound. -/
def artifactDims (p : PageSpec) (dpi maxImageSize : Nat) : Nat × Nat :=
  resizeStep (scaleDim p.w0 dpi) (scaleDim p.h0 dpi) maxImageSize

/-! ### The conversion routine -/

/-- Events recorded by the logger during one call. -/
inductive LogEntry
  | pdfSaved (path : String)
  | openedPdf (pages : Nat)
  | openError
  | pageDone (ordinal : Nat)
  | pageError (ordinal : Nat)
  | convertError
  | docClosed
  | docCloseError
deriving DecidableEq, Repr

/-- State of the document handle when the routine exits. -/
inductive HandleState
  | opened
  | closed
deriving DecidableEq, Repr

/-- State threaded through the page loop: the accumulated `image_paths`
list, the filesystem, and the log. -/
abbrev LoopState := List String × FS × List LogEntry

/-- One iteration of the page loop: the body of
`for page_num in range(total_pages)` with its `try/except`. On success the
artifact is written and its path appended; on any exception the error is
logged and the loop continues with the state otherwise unchanged. -/
def processPage (tempFolder : String) (dpi maxImageSize quality : Nat)
    (doc : PdfDoc) (pageNum : Nat) (st : LoopState) : LoopState :=
  let p := doc.pages pageNum
  if p.failBeforeSave then
    (st.1, st.2.1, st.2.2 ++ [.pageError (pageNum + 1)])
  else
    let dims := artifactDims p dpi maxImageSize
    let path := pagePath tempFolder (pageNum + 1)
    if p.saveFails then
      (st.1, st.2.1, st.2.2 ++ [.pageError (pageNum + 1)])
    else
      (st.1 ++ [path], st.2.1.write path (.jpeg dims.1 dims.2 quality),
        st.2.2 ++ [.pageDone (pageNum + 1)])

/-- The page loop over pages `0, ..., n-1`. -/
def runPages (tempFolder : String) (dpi maxImageSize quality : Nat)
    (doc : PdfDoc) (n : Nat) (st : LoopState) : LoopState :=
  (List.range n).foldl
    (fun acc i => processPage tempFolder dpi maxImageSize quality doc i acc) st

/-- Result of one call to the routine: a normal return carrying
`(image_paths, total_pages)`, or an exception escaping to the caller. Both
carry the final filesystem, the log, and the state of the document handle. -/
inductive ConvertOut
  | ok (imagePaths : List String) (totalPages : Nat)
      (fs : FS) (log : List LogEntry) (handle : HandleState)
  | raised (fs : FS) (log : List LogEntry) (handle : HandleState)
deriving DecidableEq, Repr

/-- The handle state a call left behind, on either kind of exit. -/
def ConvertOut.handleState : ConvertOut → HandleState
  | .ok _ _ _ _ h => h
  | .raised _ _ h => h

/-- The final filesystem of a call, on either kind of exit. -/
def ConvertOut.finalFS : ConvertOut → FS
  | .ok _ _ fs _ _ => fs
  | .raised fs _ _ => fs

/-- The `finally` block: `pdf_document.close()` guarded by a `try/except`
that logs a close failure without re-raising. The handle is relinquished
either way. -/
def closeDoc (doc : PdfDoc) (log : List LogEntry) : List LogEntry × HandleState :=
  if doc.closeFails then (log ++ [.docCloseError], .closed)
  else (log ++ [.docClosed], .closed)

/-- Shallow embedding of `convert_pdf_to_images(uploaded_file, temp_folder,
logger, dpi, max_image_size, quality)`:
ensure `temp_folder` exists, persist the upload to `uploaded.pdf`, open it
through the library oracle (an open failure is logged and re-raised, and the
outer `except` logs again and re-raises, with nothing to close), read
`total_pages = pdf_document.page_count`, run the page loop, close the handle
in `finally`, and return `(image_paths, total_pages)`. -/
def convert_pdf_to_images (parsePdf : List Nat → Option PdfDoc)
    (uploadedBytes : List Nat) (tempFolder : String)
    (dpi maxImageSize quality : Nat) (fs0 : FS) : ConvertOut :=
  let fs1 := fs0.makedirs tempFolder
  let fs2 := fs1.write (pdfPath tempFolder) (.pdf uploadedBytes)
  let log0 : List LogEntry := [.pdfSaved (pdfPath tempFolder)]
  match parsePdf uploadedBytes with
  | none =>
      .raised fs2 (log0 ++ [.openError, .convertError]) .closed
  | some doc =>
      let totalPages := doc.pageCount
      let st := runPages tempFolder dpi maxImageSize quality doc totalPages
        ([], fs2, log0 ++ [.openedPdf totalPages])
      let fin := closeDoc doc st.2.2
      .ok st.1 totalPages st.2.1 fin.1 fin.2

/-! ### Derived definitions used by the statements below -/

/-- Value of a decimal digit list, inverse to `decChars`. -/
def decVal (l : List Char) : Nat := l.foldl (fun a c => 10 * a + (c.toNat - 48)) 0

/-- The artifact paths collected by the loop over pages `0, ..., n-1`: the
successful page indices, in order, each mapped to its path. -/
def okPaths (tempFolder : String) (doc : PdfDoc) (n : Nat) : List String :=
  ((List.range n).filter (fun i => (doc.pages i).succeeds)).map
    (fun i => pagePath tempFolder (i + 1))

/-- The per-page log entries recorded by the loop over pages `0, ..., n-1`. -/
def pageLog (doc : PdfDoc) (n : Nat) : List LogEntry :=
  (List.range n).map
    (fun i => if (doc.pages i).succeeds then .pageDone (i + 1) else .pageError (i + 1))

/-- The filesystem right after the upload is persisted: the output directory
exists and `uploaded.pdf` holds the supplied bytes. -/
def initFS (fs0 : FS) (tf : String) (bytes : List Nat) : FS :=
  (fs0.makedirs tf).write (pdfPath tf) (.pdf bytes)

/-- The log before the page loop starts. -/
def initLog (tf : String) (doc : PdfDoc) : List LogEntry :=
  [.pdfSaved (pdfPath tf), .openedPdf doc.pageCount]

/-- List of artifact paths a call returned (empty when the call raised). -/
def ConvertOut.pathsOf : ConvertOut → List String
  | .ok paths _ _ _ _ => paths
  | .raised _ _ _ => []

/-- Whether the call returned normally. -/
def ConvertOut.isOk : ConvertOut → Bool
  | .ok _ _ _ _ _ => true
  | .raised _ _ _ => false

/-- A two-page Letter-size document whose first page raises during
rasterization and whose second page succeeds. -/
def docA : PdfDoc :=
  { pageCount := 2,
    pages := fun i => if i = 0 then ⟨612, 792, true, false⟩ else ⟨612, 792, false, false⟩,
    closeFails := false }

def parseA : List Nat → Option PdfDoc := fun _ => some docA

/-- A one-page document whose `close()` raises. -/
def docB : PdfDoc :=
  { pageCount := 1, pages := fun _ => ⟨612, 792, false, false⟩, closeFails := true }

def parseB : List Nat → Option PdfDoc := fun _ => some docB

/-- A one-page 100 pt x 50 pt document: at 144 dpi it renders at 200 x 100
pixels, above a 150-pixel bound. -/
def docD : PdfDoc :=
  { pageCount := 1, pages := fun _ => ⟨100, 50, false, false⟩, closeFails := false }

def parseD : List Nat → Option PdfDoc := fun _ => some docD

/-- An oracle on which `fitz.open` always fails. -/
def parseNone : List Nat → Option PdfDoc := fun _ => none

/-- The empty starting filesystem. -/
def emptyFS : FS := ⟨[], []⟩

/-! ### Decimal rendering: injectivity -/

lemma digitChar_toNat {d : Nat} (hd : d < 10) : (digitChar d).toNat = 48 + d := by
  interval_cases d <;> rfl

lemma decCharsAux_congr : ∀ f g n, n < f → n < g → decCharsAux f n = decCharsAux g n := by
  intro f
  induction f with
  | zero => intro g n h; omega
  | succ f ih =>
    intro g n hf hg
    cases g with
    | zero => omega
    | succ g =>
      simp only [decCharsAux]
      by_cases h10 : n < 10
      · simp [h10]
      · have hdiv : n / 10 < n := Nat.div_lt_self (by omega) (by omega)
        simp only [h10, if_false]
        rw [ih g (n / 10) (by omega) (by omega)]

lemma decCharsAux_step (f m : Nat) :
    decCharsAux (f + 1) m =
      if m < 10 then [digitChar m] else decCharsAux f (m / 10) ++ [digitChar (m % 10)] := rfl

lemma decChars_eq (n : Nat) :
    decChars n = if n < 10 then [digitChar n]
      else decChars (n / 10) ++ [digitChar (n % 10)] := by
  by_cases h10 : n < 10
  · rw [decChars, decCharsAux_step, if_pos h10, if_pos h10]
  · have hdiv : n / 10 < n := Nat.div_lt_self (by omega) (by omega)
    rw [decChars, decCharsAux_step, if_neg h10, if_neg h10]
    rw [decCharsAux_congr n (n / 10 + 1) (n / 10) (by omega) (by omega)]
    rfl

lemma decVal_append (l : List Char) (c : Char) :
    decVal (l ++ [c]) = 10 * decVal l + (c.toNat - 48) := by
  simp [decVal, List.foldl_append]

lemma decVal_decChars : ∀ n, decVal (decChars n) = n := by
  intro n
  induction n using Nat.strong_induction_on with
  | _ n ih =>
    rw [decChars_eq]
    by_cases h10 : n < 10
    · simp [h10, decVal, digitChar_toNat h10]
    · have hdiv : n / 10 < n := Nat.div_lt_self (by omega) (by omega)
      simp only [h10, if_false]
      rw [decVal_append, ih (n / 10) hdiv, digitChar_toNat (Nat.mod_lt n (by omega))]
      omega

lemma natStr_injective {a b : Nat} (h : natStr a = natStr b) : a = b := by
  have hd : decChars a = decChars b := congrArg String.data h
  have := congrArg decVal hd
  rwa [decVal_decChars, decVal_decChars] at this

/-! ### Path lemmas -/

lemma string_append_cancel_left {a b c : String} (h : a ++ b = a ++ c) : b = c := by
  apply String.ext
  have := congrArg String.data h
  rw [String.data_append, String.data_append] at this
  exact List.append_cancel_left this

lemma string_append_cancel_right {a b c : String} (h : a ++ c = b ++ c) : a = b := by
  apply String.ext
  have := congrArg String.data h
  rw [String.data_append, String.data_append] at this
  exact List.append_cancel_right this

lemma pagePath_injective {tf : String} {a b : Nat} (h : pagePath tf a = pagePath tf b) :
    a = b := by
  unfold pagePath joinPath at h
  have h1 : ("page_" ++ natStr a ++ ".jpg" : String) = "page_" ++ natStr b ++ ".jpg" :=
    string_append_cancel_left h
  have h2 : ("page_" ++ natStr a : String) = "page_" ++ natStr b :=
    string_append_cancel_right h1
  exact natStr_injective (string_append_cancel_left h2)

lemma pagePath_ne_pdfPath (tf : String) (n : Nat) : pagePath tf n ≠ pdfPath tf := by
  intro h
  unfold pagePath pdfPath joinPath at h
  have h1 : ("page_" ++ natStr n ++ ".jpg" : String) = "uploaded.pdf" :=
    string_append_cancel_left h
  have h2 := congrArg String.data h1
  rw [String.data_append, String.data_append] at h2
  have h3 := congrArg List.head? h2
  simp at h3

/-! ### Filesystem lemmas -/

lemma FS.read_write_self (fs : FS) (p : String) (d : FileData) :
    (fs.write p d).read p = some d := by
  simp [FS.read, FS.write, findFile]

lemma findFile_filter (l : List (String × FileData)) {p p' : String} (h : p' ≠ p) :
    findFile (l.filter (fun e => e.1 ≠ p)) p' = findFile l p' := by
  induction l with
  | nil => rfl
  | cons e rest ih =>
    by_cases he : e.1 = p
    · have hne : e.1 ≠ p' := fun h' => h (h'.symm.trans he)
      rw [List.filter_cons_of_neg (by simpa using he), ih]
      conv_rhs => rw [findFile]
      rw [if_neg hne]
    · rw [List.filter_cons_of_pos (by simpa using he)]
      conv_lhs => rw [findFile]
      conv_rhs => rw [findFile]
      by_cases hp : e.1 = p'
      · rw [if_pos hp, if_pos hp]
      · rw [if_neg hp, if_neg hp, ih]

lemma FS.read_write_ne (fs : FS) {p p' : String} (d : FileData) (h : p' ≠ p) :
    (fs.write p d).read p' = fs.read p' := by
  simp only [FS.read, FS.write]
  rw [findFile, if_neg (fun hq : p = p' => h hq.symm)]
  exact findFile_filter fs.files h

lemma FS.read_makedirs (fs : FS) (d p : String) :
    (fs.makedirs d).read p = fs.read p := by
  unfold FS.makedirs FS.read
  split <;> rfl

/-! ### Characterization of the page loop -/

section LoopLemmas

variable (tf : String) (dpi m q : Nat) (doc : PdfDoc)

lemma runPages_zero (st : LoopState) : runPages tf dpi m q doc 0 st = st := rfl

lemma runPages_succ (n : Nat) (st : LoopState) :
    runPages tf dpi m q doc (n + 1) st =
      processPage tf dpi m q doc n (runPages tf dpi m q doc n st) := by
  simp [runPages, List.range_succ]

lemma processPage_succeeds {i : Nat} (hs : (doc.pages i).succeeds = true) (st : LoopState) :
    processPage tf dpi m q doc i st =
      (st.1 ++ [pagePath tf (i + 1)],
        st.2.1.write (pagePath tf (i + 1))
          (.jpeg (artifactDims (doc.pages i) dpi m).1 (artifactDims (doc.pages i) dpi m).2 q),
        st.2.2 ++ [.pageDone (i + 1)]) := by
  have h1 : (doc.pages i).failBeforeSave = false := by
    simp [PageSpec.succeeds] at hs; exact hs.1
  have h2 : (doc.pages i).saveFails = false := by
    simp [PageSpec.succeeds] at hs; exact hs.2
  simp [processPage, h1, h2]

lemma processPage_fails {i : Nat} (hs : (doc.pages i).succeeds = false) (st : LoopState) :
    processPage tf dpi m q doc i st = (st.1, st.2.1, st.2.2 ++ [.pageError (i + 1)]) := by
  unfold processPage
  by_cases h1 : (doc.pages i).failBeforeSave = true
  · simp [h1]
  · have h2 : (doc.pages i).saveFails = true := by
      simp [PageSpec.succeeds] at hs
      simpa using hs (by simpa using h1)
    simp [h2]

lemma runPages_fst (n : Nat) (st : LoopState) :
    (runPages tf dpi m q doc n st).1 = st.1 ++ okPaths tf doc n := by
  induction n with
  | zero => simp [runPages_zero, okPaths]
  | succ n ih =>
    rw [runPages_succ]
    have hok : okPaths tf doc (n + 1) =
        okPaths tf doc n ++
          (if (doc.pages n).succeeds then [pagePath tf (n + 1)] else []) := by
      simp only [okPaths, List.range_succ, List.filter_append, List.map_append]
      cases hs : (doc.pages n).succeeds <;> simp [hs]
    cases hs : (doc.pages n).succeeds
    · rw [processPage_fails tf dpi m q doc hs, hok, hs]
      simpa using ih
    · rw [processPage_succeeds tf dpi m q doc hs, hok, hs]
      simp [ih]

lemma runPages_log (n : Nat) (st : LoopState) :
    (runPages tf dpi m q doc n st).2.2 = st.2.2 ++ pageLog doc n := by
  induction n with
  | zero => simp [runPages_zero, pageLog]
  | succ n ih =>
    rw [runPages_succ]
    have hlog : pageLog doc (n + 1) =
        pageLog doc n ++
          [if (doc.pages n).succeeds then LogEntry.pageDone (n + 1)
           else LogEntry.pageError (n + 1)] := by
      simp [pageLog, List.range_succ]
    cases hs : (doc.pages n).succeeds
    · rw [processPage_fails tf dpi m q doc hs, hlog, hs]
      simp [ih]
    · rw [processPage_succeeds tf dpi m q doc hs, hlog, hs]
      simp [ih]

lemma runPages_read_untouched (n : Nat) (st : LoopState) (p : String)
    (hp : ∀ j, j < n → p ≠ pagePath tf (j + 1)) :
    (runPages tf dpi m q doc n st).2.1.read p = st.2.1.read p := by
  induction n with
  | zero => rw [runPages_zero]
  | succ n ih =>
    rw [runPages_succ]
    have ih' := ih (fun j hj => hp j (by omega))
    cases hs : (doc.pages n).succeeds
    · rw [processPage_fails tf dpi m q doc hs]
      exact ih'
    · rw [processPage_succeeds tf dpi m q doc hs]
      simp only
      rw [FS.read_write_ne _ _ (hp n (by omega))]
      exact ih'

lemma runPages_read_page {i n : Nat} (hin : i < n) (st : LoopState) :
    (runPages tf dpi m q doc n st).2.1.read (pagePath tf (i + 1)) =
      if (doc.pages i).succeeds then
        some (.jpeg (artifactDims (doc.pages i) dpi m).1 (artifactDims (doc.pages i) dpi m).2 q)
      else st.2.1.read (pagePath tf (i + 1)) := by
  induction n with
  | zero => omega
  | succ n ih =>
    rw [runPages_succ]
    by_cases hi : i = n
    · subst hi
      have huntouched : (runPages tf dpi m q doc i st).2.1.read (pagePath tf (i + 1)) =
          st.2.1.read (pagePath tf (i + 1)) := by
        apply runPages_read_untouched
        intro j hj hpj
        have := pagePath_injective hpj
        omega
      cases hs : (doc.pages i).succeeds
      · rw [processPage_fails tf dpi m q doc hs]
        simpa using huntouched
      · rw [processPage_succeeds tf dpi m q doc hs]
        simp only
        rw [FS.read_write_self]
        simp
    · have hin' : i < n := by omega
      have hne : pagePath tf (i + 1) ≠ pagePath tf (n + 1) := by
        intro hpe
        have := pagePath_injective hpe
        omega
      cases hs : (doc.pages n).succeeds
      · rw [processPage_fails tf dpi m q doc hs]
        exact ih hin'
      · rw [processPage_succeeds tf dpi m q doc hs]
        simp only
        rw [FS.read_write_ne _ _ hne]
        exact ih hin'

end LoopLemmas

/-! ### Shape of a whole call -/

lemma closeDoc_eq (doc : PdfDoc) (log : List LogEntry) :
    closeDoc doc log =
      (log ++ [if doc.closeFails then .docCloseError else .docClosed], .closed) := by
  unfold closeDoc
  cases doc.closeFails <;> simp

lemma convert_some_shape {parsePdf : List Nat → Option PdfDoc} {bytes : List Nat}
    {doc : PdfDoc} (tf : String) (dpi m q : Nat) (fs0 : FS)
    (h : parsePdf bytes = some doc) :
    convert_pdf_to_images parsePdf bytes tf dpi m q fs0 =
      .ok (okPaths tf doc doc.pageCount) doc.pageCount
        (runPages tf dpi m q doc doc.pageCount
          ([], initFS fs0 tf bytes, initLog tf doc)).2.1
        ((initLog tf doc ++ pageLog doc doc.pageCount) ++
          [if doc.closeFails then .docCloseError else .docClosed])
        .closed := by
  unfold convert_pdf_to_images
  rw [h]
  simp only [closeDoc_eq, initFS, initLog]
  rw [runPages_fst, runPages_log]
  simp

lemma convert_none_shape {parsePdf : List Nat → Option PdfDoc} {bytes : List Nat}
    (tf : String) (dpi m q : Nat) (fs0 : FS) (h : parsePdf bytes = none) :
    convert_pdf_to_images parsePdf bytes tf dpi m q fs0 =
      .raised (initFS fs0 tf bytes)
        [.pdfSaved (pdfPath tf), .openError, .convertError] .closed := by
  unfold convert_pdf_to_images
  rw [h]
  rfl

lemma initFS_read_pdf (fs0 : FS) (tf : String) (bytes : List Nat) :
    (initFS fs0 tf bytes).read (pdfPath tf) = some (.pdf bytes) :=
  FS.read_write_self _ _ _

lemma initFS_read_ne (fs0 : FS) (tf : String) (bytes : List Nat) {p : String}
    (h : p ≠ pdfPath tf) : (initFS fs0 tf bytes).read p = fs0.read p := by
  unfold initFS
  rw [FS.read_write_ne _ _ h, FS.read_makedirs]

lemma initFS_mem_dirs (fs0 : FS) (tf : String) (bytes : List Nat) :
    tf ∈ (initFS fs0 tf bytes).dirs := by
  show tf ∈ (fs0.makedirs tf).dirs
  unfold FS.makedirs
  split
  · assumption
  · exact List.mem_cons_self _ _

/-! ### Bounds on the thumbnail arithmetic -/

lemma cdiv_le {a b m : Nat} (hb : 1 ≤ b) (ha : a ≤ m * b) : cdiv a b ≤ m := by
  unfold cdiv
  have hexp : (m + 1) * b = m * b + b := by ring
  have h1 : a + b - 1 < (m + 1) * b := by omega
  have := (Nat.div_lt_iff_lt_mul (by omega : 0 < b)).mpr h1
  omega

lemma ite_max_le {c : Prop} [Decidable c] {f g m : Nat} (hf : f ≤ m) (hg : g ≤ m)
    (hm : 1 ≤ m) : (if c then f else g) ⊔ 1 ≤ m := by
  split <;> omega

lemma roundAspectW_le {w h m : Nat} (hm : 1 ≤ m) (hh : 1 ≤ h) (hwh : w ≤ h) :
    roundAspectW w h m ≤ m := by
  have hf : m * w / h ≤ m := by
    calc m * w / h ≤ m * h / h := Nat.div_le_div_right (Nat.mul_le_mul_left m hwh)
    _ = m := Nat.mul_div_cancel m (by omega)
  have hc : cdiv (m * w) h ≤ m := cdiv_le hh (Nat.mul_le_mul_left m hwh)
  simp only [roundAspectW]
  exact ite_max_le hf hc hm

lemma roundAspectH_le {w h m : Nat} (hm : 1 ≤ m) (hw : 1 ≤ w) (hwh : h ≤ w) :
    roundAspectH w h m ≤ m := by
  have hf : m * h / w ≤ m := by
    calc m * h / w ≤ m * w / w := Nat.div_le_div_right (Nat.mul_le_mul_left m hwh)
    _ = m := Nat.mul_div_cancel m (by omega)
  have hc : cdiv (m * h) w ≤ m := cdiv_le hw (Nat.mul_le_mul_left m hwh)
  simp only [roundAspectH]
  exact ite_max_le hf hc hm

/-- When the rendered image exceeds the box, `thumbnail` makes the larger
output dimension exactly the box size. -/
lemma thumbnailDims_max_eq {w h m : Nat} (hw : 1 ≤ w) (hh : 1 ≤ h) (hm : 1 ≤ m)
    (hbig : max w h > m) :
    max (thumbnailDims w h m).1 (thumbnailDims w h m).2 = m := by
  unfold thumbnailDims
  rw [if_neg (by omega : ¬(m ≥ w ∧ m ≥ h))]
  by_cases hcmp : h * m ≥ w * m
  · have hwh : w ≤ h := Nat.le_of_mul_le_mul_right hcmp (by omega)
    rw [if_pos hcmp]
    have := roundAspectW_le hm hh hwh
    simp
    omega
  · have hwh : h ≤ w := by
      by_contra hcon
      exact hcmp (Nat.mul_le_mul_right m (by omega))
    rw [if_neg hcmp]
    have := roundAspectH_le hm hw hwh
    simp
    omega

lemma resizeStep_of_le {w h m : Nat} (hle : max w h ≤ m) :
    resizeStep w h m = (w, h) := by
  unfold resizeStep
  rw [if_neg (by omega)]

lemma resizeStep_max_eq {w h m : Nat} (hw : 1 ≤ w) (hh : 1 ≤ h) (hm : 1 ≤ m)
    (hbig : max w h > m) :
    max (resizeStep w h m).1 (resizeStep w h m).2 = m := by
  unfold resizeStep
  rw [if_pos hbig]
  exact thumbnailDims_max_eq hw hh hm hbig

lemma resizeStep_max_le {w h m : Nat} (hw : 1 ≤ w) (hh : 1 ≤ h) (hm : 1 ≤ m) :
    max (resizeStep w h m).1 (resizeStep w h m).2 ≤ m := by
  by_cases hbig : max w h > m
  · exact le_of_eq (resizeStep_max_eq hw hh hm hbig)
  · rw [resizeStep_of_le (by omega)]
    omega

/-! ### The claims -/

/-- C1: for every PDF that opens successfully, `convert_pdf_to_images`
returns `total_pages` equal to the page count the document handle reported
right after opening, and the artifact list has length at most `total_pages`
(equality is not asserted). -/
theorem rasterize_totalPages_and_count
    (parsePdf : List Nat → Option PdfDoc) (bytes : List Nat) (tf : String)
    (dpi m q : Nat) (fs0 : FS) (doc : PdfDoc) (h : parsePdf bytes = some doc) :
    ∃ paths fsOut log,
      convert_pdf_to_images parsePdf bytes tf dpi m q fs0 =
        .ok paths doc.pageCount fsOut log .closed ∧
      paths.length ≤ doc.pageCount := by
  refine ⟨_, _, _, convert_some_shape tf dpi m q fs0 h, ?_⟩
  simp only [okPaths, List.length_map]
  calc ((List.range doc.pageCount).filter (fun i => (doc.pages i).succeeds)).length
      ≤ (List.range doc.pageCount).length := List.length_filter_le _ _
    _ = doc.pageCount := List.length_range _

/-- Witness for C1 on a concrete two-page document. -/
theorem rasterize_totalPages_and_count_witness :
    ∃ paths fsOut log,
      convert_pdf_to_images parseA [] "t" 200 1024 85 emptyFS =
        .ok paths docA.pageCount fsOut log .closed ∧
      paths.length ≤ docA.pageCount :=
  rasterize_totalPages_and_count parseA [] "t" 200 1024 85 emptyFS docA rfl

/-- C2: when page `k` fails, the error is recorded and the loop continues:
the call still returns normally (never raises), `total_pages` is unaffected,
page `k` contributes no artifact, and every other succeeding page still gets
its artifact both in the returned list and on disk. -/
theorem page_failure_isolated
    (parsePdf : List Nat → Option PdfDoc) (bytes : List Nat) (tf : String)
    (dpi m q : Nat) (fs0 : FS) (doc : PdfDoc) (k : Nat)
    (h : parsePdf bytes = some doc) (hk : k < doc.pageCount)
    (hfail : (doc.pages k).succeeds = false) :
    ∃ paths fsOut log,
      convert_pdf_to_images parsePdf bytes tf dpi m q fs0 =
        .ok paths doc.pageCount fsOut log .closed ∧
      LogEntry.pageError (k + 1) ∈ log ∧
      pagePath tf (k + 1) ∉ paths ∧
      ∀ i, i < doc.pageCount → i ≠ k → (doc.pages i).succeeds = true →
        pagePath tf (i + 1) ∈ paths ∧
        fsOut.read (pagePath tf (i + 1)) =
          some (.jpeg (artifactDims (doc.pages i) dpi m).1
            (artifactDims (doc.pages i) dpi m).2 q) := by
  refine ⟨_, _, _, convert_some_shape tf dpi m q fs0 h, ?_, ?_, ?_⟩
  · apply List.mem_append_left
    apply List.mem_append_right
    simp only [pageLog, List.mem_map]
    exact ⟨k, by simp [hk], by simp [hfail]⟩
  · intro hmem
    simp only [okPaths, List.mem_map, List.mem_filter, List.mem_range] at hmem
    obtain ⟨i, ⟨hi, hsi⟩, hpe⟩ := hmem
    have hik : i = k := by have := pagePath_injective hpe; omega
    rw [hik, hfail] at hsi
    simp at hsi
  · intro i hi hneq hsi
    refine ⟨?_, ?_⟩
    · simp only [okPaths, List.mem_map]
      exact ⟨i, List.mem_filter.mpr ⟨List.mem_range.mpr hi, by simp [hsi]⟩, rfl⟩
    · rw [runPages_read_page tf dpi m q doc hi]
      simp [hsi]

/-- Witness for C2: in `docA` page 1 (index 0) fails and page 2 succeeds. -/
theorem page_failure_isolated_witness :
    ∃ paths fsOut log,
      convert_pdf_to_images parseA [] "t" 200 1024 85 emptyFS =
        .ok paths docA.pageCount fsOut log .closed ∧
      LogEntry.pageError (0 + 1) ∈ log ∧
      pagePath "t" (0 + 1) ∉ paths ∧
      ∀ i, i < docA.pageCount → i ≠ 0 → (docA.pages i).succeeds = true →
        pagePath "t" (i + 1) ∈ paths ∧
        fsOut.read (pagePath "t" (i + 1)) =
          some (.jpeg (artifactDims (docA.pages i) 200 1024).1
            (artifactDims (docA.pages i) 200 1024).2 85) :=
  page_failure_isolated parseA [] "t" 200 1024 85 emptyFS docA 0 rfl
    (by decide) (by decide)

/-- C3 counterexample: on a two-page document whose page 1 fails and whose
page 2 succeeds, the returned sequence is not indexed by ordinal minus one:
page 2 succeeded, yet index `2 - 1` of the returned list holds nothing — the
list has length one, with page 2's artifact shifted down to index 0 (the
position the claim reserves for ordinal 1). -/
theorem artifact_index_shift_counterexample :
    (docA.pages 1).succeeds = true ∧
    (convert_pdf_to_images parseA [] "t" 200 1024 85 emptyFS).isOk = true ∧
    (convert_pdf_to_images parseA [] "t" 200 1024 85 emptyFS).pathsOf.get?
      (2 - 1) = none ∧
    (convert_pdf_to_images parseA [] "t" 200 1024 85 emptyFS).pathsOf.get? 0 =
      some (pagePath "t" 2) := by decide

/-- C3 (amended): the returned artifact sequence lists the successful pages'
paths in increasing page order, compacted — a failed page contributes no
element and the artifacts of later pages shift down, so the gap left by a
failed page shows only in the page-numbered filenames, not as an absent
position. The artifact of the page with ordinal `n + 1` is at index `n`
whenever pages `1 .. n + 1` all succeeded (hence for every page when no page
fails). -/
theorem artifact_sequence_compacted
    (parsePdf : List Nat → Option PdfDoc) (bytes : List Nat) (tf : String)
    (dpi m q : Nat) (fs0 : FS) (doc : PdfDoc) (h : parsePdf bytes = some doc) :
    ∃ fsOut log,
      convert_pdf_to_images parsePdf bytes tf dpi m q fs0 =
        .ok (((List.range doc.pageCount).filter (fun i => (doc.pages i).succeeds)).map
          (fun i => pagePath tf (i + 1))) doc.pageCount fsOut log .closed ∧
      ∀ n, n < doc.pageCount → (∀ j, j ≤ n → (doc.pages j).succeeds = true) →
        (((List.range doc.pageCount).filter (fun i => (doc.pages i).succeeds)).map
          (fun i => pagePath tf (i + 1))).get? n = some (pagePath tf (n + 1)) := by
  refine ⟨_, _, convert_some_shape tf dpi m q fs0 h, ?_⟩
  intro n hn hall
  have hsplit : List.range doc.pageCount =
      List.range (n + 1) ++ (List.range (doc.pageCount - (n + 1))).map
        (fun x => (n + 1) + x) := by
    rw [← List.range_add]
    congr 1
    omega
  rw [hsplit, List.filter_append, List.map_append]
  have hfirst : (List.range (n + 1)).filter (fun i => (doc.pages i).succeeds) =
      List.range (n + 1) := by
    apply List.filter_eq_self.mpr
    intro a ha
    have : a ≤ n := by simpa [Nat.lt_succ_iff] using List.mem_range.mp ha
    simp [hall a this]
  rw [hfirst]
  rw [List.get?_append (by simp)]
  simp [List.get?_map, List.get?_range (by omega : n < n + 1)]

/-- Witness for the amended C3 on the concrete two-page document. -/
theorem artifact_sequence_compacted_witness :
    ∃ fsOut log,
      convert_pdf_to_images parseA [] "t" 200 1024 85 emptyFS =
        .ok (((List.range docA.pageCount).filter (fun i => (docA.pages i).succeeds)).map
          (fun i => pagePath "t" (i + 1))) docA.pageCount fsOut log .closed ∧
      ∀ n, n < docA.pageCount → (∀ j, j ≤ n → (docA.pages j).succeeds = true) →
        (((List.range docA.pageCount).filter (fun i => (docA.pages i).succeeds)).map
          (fun i => pagePath "t" (i + 1))).get? n = some (pagePath "t" (n + 1)) :=
  artifact_sequence_compacted parseA [] "t" 200 1024 85 emptyFS docA rfl

/-- C4: an open failure propagates to the caller as an exception carrying no
partial result and no artifacts, and leaves no `page_<n>.jpg` files in the
output directory (none appears that was not already there); conversely, an
exception escaping the routine can only come from the open failure, so the
open failure is the only failure class that aborts the whole operation. -/
theorem open_failure_fatal
    (parsePdf : List Nat → Option PdfDoc) (bytes : List Nat) (tf : String)
    (dpi m q : Nat) (fs0 : FS) :
    (parsePdf bytes = none →
      convert_pdf_to_images parsePdf bytes tf dpi m q fs0 =
        .raised (initFS fs0 tf bytes)
          [.pdfSaved (pdfPath tf), .openError, .convertError] .closed ∧
      ∀ n : Nat, fs0.read (pagePath tf n) = none →
        (initFS fs0 tf bytes).read (pagePath tf n) = none) ∧
    (∀ fs log hs,
      convert_pdf_to_images parsePdf bytes tf dpi m q fs0 = .raised fs log hs →
      parsePdf bytes = none) := by
  constructor
  · intro hnone
    refine ⟨convert_none_shape tf dpi m q fs0 hnone, ?_⟩
    intro n hn
    rw [initFS_read_ne fs0 tf bytes (pagePath_ne_pdfPath tf n)]
    exact hn
  · intro fs log hs heq
    cases hp : parsePdf bytes with
    | none => rfl
    | some doc =>
      rw [convert_some_shape tf dpi m q fs0 hp] at heq
      simp at heq

/-- Witness for C4 on an oracle that rejects every byte sequence. -/
theorem open_failure_fatal_witness :
    convert_pdf_to_images parseNone [] "t" 200 1024 85 emptyFS =
      .raised (initFS emptyFS "t" [])
        [.pdfSaved (pdfPath "t"), .openError, .convertError] .closed ∧
    (initFS emptyFS "t" []).read (pagePath "t" 1) = none :=
  ⟨((open_failure_fatal parseNone [] "t" 200 1024 85 emptyFS).1 rfl).1,
   ((open_failure_fatal parseNone [] "t" 200 1024 85 emptyFS).1 rfl).2 1 rfl⟩

/-- C5: on every exit path the document handle ends closed — trivially so on
the open-failure path, where it was never opened — and a close failure is
recorded in the log while the call still returns normally (the close error is
never propagated). -/
theorem handle_closed_on_all_paths
    (parsePdf : List Nat → Option PdfDoc) (bytes : List Nat) (tf : String)
    (dpi m q : Nat) (fs0 : FS) :
    (convert_pdf_to_images parsePdf bytes tf dpi m q fs0).handleState = .closed ∧
    ∀ doc, parsePdf bytes = some doc → doc.closeFails = true →
      ∃ paths fsOut log,
        convert_pdf_to_images parsePdf bytes tf dpi m q fs0 =
          .ok paths doc.pageCount fsOut log .closed ∧
        LogEntry.docCloseError ∈ log := by
  constructor
  · cases hp : parsePdf bytes with
    | none => rw [convert_none_shape tf dpi m q fs0 hp]; rfl
    | some doc => rw [convert_some_shape tf dpi m q fs0 hp]; rfl
  · intro doc hp hclose
    refine ⟨_, _, _, convert_some_shape tf dpi m q fs0 hp, ?_⟩
    apply List.mem_append_right
    simp [hclose]

/-- Witness for C5 on a concrete document whose `close()` raises. -/
theorem handle_closed_on_all_paths_witness :
    (convert_pdf_to_images parseB [] "t" 200 1024 85 emptyFS).handleState = .closed ∧
    ∃ paths fsOut log,
      convert_pdf_to_images parseB [] "t" 200 1024 85 emptyFS =
        .ok paths docB.pageCount fsOut log .closed ∧
      LogEntry.docCloseError ∈ log :=
  ⟨(handle_closed_on_all_paths parseB [] "t" 200 1024 85 emptyFS).1,
   (handle_closed_on_all_paths parseB [] "t" 200 1024 85 emptyFS).2 docB rfl rfl⟩

/-- C6: for a page that renders and saves, the stored artifact has the
dimensions of `resizeStep`; when the rendered size exceeds `max_image_size`
on its larger axis the downscale makes the larger output dimension exactly
the bound, when the rendered size is already within the bound on both axes
the dimensions are untouched (no resampling, never an upscale), and in all
cases the artifact satisfies `max(width, height) <= max_image_size`. -/
theorem artifact_dims_bounded
    (parsePdf : List Nat → Option PdfDoc) (bytes : List Nat) (tf : String)
    (dpi m q : Nat) (fs0 : FS) (doc : PdfDoc) (i : Nat)
    (h : parsePdf bytes = some doc) (hi : i < doc.pageCount)
    (hs : (doc.pages i).succeeds = true) (hm : 1 ≤ m)
    (hw : 1 ≤ scaleDim (doc.pages i).w0 dpi)
    (hh : 1 ≤ scaleDim (doc.pages i).h0 dpi) :
    ∃ paths fsOut log,
      convert_pdf_to_images parsePdf bytes tf dpi m q fs0 =
        .ok paths doc.pageCount fsOut log .closed ∧
      fsOut.read (pagePath tf (i + 1)) =
        some (.jpeg (artifactDims (doc.pages i) dpi m).1
          (artifactDims (doc.pages i) dpi m).2 q) ∧
      (max (scaleDim (doc.pages i).w0 dpi) (scaleDim (doc.pages i).h0 dpi) > m →
        max (artifactDims (doc.pages i) dpi m).1
          (artifactDims (doc.pages i) dpi m).2 = m) ∧
      (max (scaleDim (doc.pages i).w0 dpi) (scaleDim (doc.pages i).h0 dpi) ≤ m →
        artifactDims (doc.pages i) dpi m =
          (scaleDim (doc.pages i).w0 dpi, scaleDim (doc.pages i).h0 dpi)) ∧
      max (artifactDims (doc.pages i) dpi m).1
        (artifactDims (doc.pages i) dpi m).2 ≤ m := by
  refine ⟨_, _, _, convert_some_shape tf dpi m q fs0 h, ?_, ?_, ?_, ?_⟩
  · rw [runPages_read_page tf dpi m q doc hi]
    simp [hs]
  · intro hbig
    exact resizeStep_max_eq hw hh hm hbig
  · intro hle
    exact resizeStep_of_le hle
  · exact resizeStep_max_le hw hh hm

/-- Witness for C6: a 100 pt x 50 pt page at 144 dpi renders at 200 x 100,
beyond the bound 150. -/
theorem artifact_dims_bounded_witness :
    ∃ paths fsOut log,
      convert_pdf_to_images parseD [] "t" 144 150 80 emptyFS =
        .ok paths docD.pageCount fsOut log .closed ∧
      fsOut.read (pagePath "t" (0 + 1)) =
        some (.jpeg (artifactDims (docD.pages 0) 144 150).1
          (artifactDims (docD.pages 0) 144 150).2 80) ∧
      (max (scaleDim (docD.pages 0).w0 144) (scaleDim (docD.pages 0).h0 144) > 150 →
        max (artifactDims (docD.pages 0) 144 150).1
          (artifactDims (docD.pages 0) 144 150).2 = 150) ∧
      (max (scaleDim (docD.pages 0).w0 144) (scaleDim (docD.pages 0).h0 144) ≤ 150 →
        artifactDims (docD.pages 0) 144 150 =
          (scaleDim (docD.pages 0).w0 144, scaleDim (docD.pages 0).h0 144)) ∧
      max (artifactDims (docD.pages 0) 144 150).1
        (artifactDims (docD.pages 0) 144 150).2 ≤ 150 :=
  artifact_dims_bounded parseD [] "t" 144 150 80 emptyFS docD 0 rfl
    (by decide) (by decide) (by decide) (by decide) (by decide)

/-- C7: every artifact path is `<output_dir>/page_<n>.jpg` for a 1-based
ordinal `n` between 1 and `total_pages` whose page succeeded, no two returned
artifacts share a path, and every succeeding ordinal's path is returned. -/
theorem artifact_paths_unique
    (parsePdf : List Nat → Option PdfDoc) (bytes : List Nat) (tf : String)
    (dpi m q : Nat) (fs0 : FS) (doc : PdfDoc) (h : parsePdf bytes = some doc) :
    ∃ paths fsOut log,
      convert_pdf_to_images parsePdf bytes tf dpi m q fs0 =
        .ok paths doc.pageCount fsOut log .closed ∧
      paths.Nodup ∧
      (∀ p ∈ paths, ∃ n, 1 ≤ n ∧ n ≤ doc.pageCount ∧ p = pagePath tf n ∧
        (doc.pages (n - 1)).succeeds = true) ∧
      (∀ n, 1 ≤ n → n ≤ doc.pageCount → (doc.pages (n - 1)).succeeds = true →
        pagePath tf n ∈ paths) := by
  refine ⟨_, _, _, convert_some_shape tf dpi m q fs0 h, ?_, ?_, ?_⟩
  · apply List.Nodup.map
    · intro a b hab
      have := pagePath_injective hab
      omega
    · exact List.Nodup.filter _ (List.nodup_range _)
  · intro p hp
    simp only [okPaths, List.mem_map, List.mem_filter, List.mem_range] at hp
    obtain ⟨i, ⟨hi, hsi⟩, rfl⟩ := hp
    exact ⟨i + 1, by omega, by omega, rfl, by simpa using hsi⟩
  · intro n h1 h2 hsn
    simp only [okPaths, List.mem_map]
    refine ⟨n - 1, List.mem_filter.mpr
      ⟨List.mem_range.mpr (by omega), by simpa using hsn⟩, ?_⟩
    congr 1
    omega

/-- Witness for C7 on the concrete two-page document. -/
theorem artifact_paths_unique_witness :
    ∃ paths fsOut log,
      convert_pdf_to_images parseA [] "t" 200 1024 85 emptyFS =
        .ok paths docA.pageCount fsOut log .closed ∧
      paths.Nodup ∧
      (∀ p ∈ paths, ∃ n, 1 ≤ n ∧ n ≤ docA.pageCount ∧ p = pagePath "t" n ∧
        (docA.pages (n - 1)).succeeds = true) ∧
      (∀ n, 1 ≤ n → n ≤ docA.pageCount → (docA.pages (n - 1)).succeeds = true →
        pagePath "t" n ∈ paths) :=
  artifact_paths_unique parseA [] "t" 200 1024 85 emptyFS docA rfl

/-- C8: the artifact stored for a succeeding page has exactly the dimensions
obtained by rounding the page's native point size times the factor `dpi/72`
on each axis — `natRound (x * dpi) 72` is `round(x * dpi / 72)` — and then
applying the bounded downscale; the `dpi` parameter governs the rendered
pixel dimensions before any downscaling. -/
theorem render_scale_dpi
    (parsePdf : List Nat → Option PdfDoc) (bytes : List Nat) (tf : String)
    (dpi m q : Nat) (fs0 : FS) (doc : PdfDoc) (i : Nat)
    (h : parsePdf bytes = some doc) (hi : i < doc.pageCount)
    (hs : (doc.pages i).succeeds = true) :
    ∃ paths fsOut log,
      convert_pdf_to_images parsePdf bytes tf dpi m q fs0 =
        .ok paths doc.pageCount fsOut log .closed ∧
      fsOut.read (pagePath tf (i + 1)) =
        some (.jpeg
          (resizeStep (natRound ((doc.pages i).w0 * dpi) 72)
            (natRound ((doc.pages i).h0 * dpi) 72) m).1
          (resizeStep (natRound ((doc.pages i).w0 * dpi) 72)
            (natRound ((doc.pages i).h0 * dpi) 72) m).2 q) := by
  refine ⟨_, _, _, convert_some_shape tf dpi m q fs0 h, ?_⟩
  rw [runPages_read_page tf dpi m q doc hi]
  simp [hs, artifactDims, scaleDim]

/-- Witness for C8 on the concrete one-page document at 144 dpi. -/
theorem render_scale_dpi_witness :
    ∃ paths fsOut log,
      convert_pdf_to_images parseD [] "t" 144 150 80 emptyFS =
        .ok paths docD.pageCount fsOut log .closed ∧
      fsOut.read (pagePath "t" (0 + 1)) =
        some (.jpeg
          (resizeStep (natRound ((docD.pages 0).w0 * 144) 72)
            (natRound ((docD.pages 0).h0 * 144) 72) 150).1
          (resizeStep (natRound ((docD.pages 0).w0 * 144) 72)
            (natRound ((docD.pages 0).h0 * 144) 72) 150).2 80) :=
  render_scale_dpi parseD [] "t" 144 150 80 emptyFS docD 0 rfl
    (by decide) (by decide)

/-- C9: running the conversion twice with the same bytes, parameters and
output directory returns the same artifact paths and the same total page
count; after the second call every `page_<n>.jpg` reads the same as after the
first (same per-page dimensions), and the second call's write of the
fixed-name `uploaded.pdf` leaves exactly the supplied bytes there. -/
theorem rerun_idempotent
    (parsePdf : List Nat → Option PdfDoc) (bytes : List Nat) (tf : String)
    (dpi m q : Nat) (fs0 : FS) (doc : PdfDoc) (h : parsePdf bytes = some doc) :
    ∃ fsA logA fsB logB,
      convert_pdf_to_images parsePdf bytes tf dpi m q fs0 =
        .ok (okPaths tf doc doc.pageCount) doc.pageCount fsA logA .closed ∧
      convert_pdf_to_images parsePdf bytes tf dpi m q fsA =
        .ok (okPaths tf doc doc.pageCount) doc.pageCount fsB logB .closed ∧
      (∀ n : Nat, fsB.read (pagePath tf (n + 1)) = fsA.read (pagePath tf (n + 1))) ∧
      fsB.read (pdfPath tf) = some (.pdf bytes) := by
  refine ⟨_, _, _, _, convert_some_shape tf dpi m q fs0 h,
    convert_some_shape tf dpi m q _ h, ?_, ?_⟩
  · intro n
    have hne := pagePath_ne_pdfPath tf (n + 1)
    by_cases hn : n < doc.pageCount
    · rw [runPages_read_page tf dpi m q doc hn, runPages_read_page tf dpi m q doc hn]
      cases hsn : (doc.pages n).succeeds
      · simp only [hsn, Bool.false_eq_true, if_false]
        rw [initFS_read_ne _ _ _ hne, initFS_read_ne _ _ _ hne,
          runPages_read_page tf dpi m q doc hn]
        simp only [hsn, Bool.false_eq_true, if_false]
        rw [initFS_read_ne _ _ _ hne]
      · simp [hsn]
    · have huntouched : ∀ j, j < doc.pageCount →
          pagePath tf (n + 1) ≠ pagePath tf (j + 1) := by
        intro j hj heq
        have := pagePath_injective heq
        omega
      rw [runPages_read_untouched tf dpi m q doc doc.pageCount _ _ huntouched,
        runPages_read_untouched tf dpi m q doc doc.pageCount _ _ huntouched]
      rw [initFS_read_ne _ _ _ hne, initFS_read_ne _ _ _ hne,
        runPages_read_untouched tf dpi m q doc doc.pageCount _ _ huntouched]
      rw [initFS_read_ne _ _ _ hne]
  · have hpdf : ∀ j, j < doc.pageCount →
        pdfPath tf ≠ pagePath tf (j + 1) := fun j hj =>
      Ne.symm (pagePath_ne_pdfPath tf (j + 1))
    rw [runPages_read_untouched tf dpi m q doc doc.pageCount _ _ hpdf]
    exact initFS_read_pdf _ tf bytes

/-- Witness for C9 on the concrete two-page document. -/
theorem rerun_idempotent_witness :
    ∃ fsA logA fsB logB,
      convert_pdf_to_images parseA [] "t" 200 1024 85 emptyFS =
        .ok (okPaths "t" docA docA.pageCount) docA.pageCount fsA logA .closed ∧
      convert_pdf_to_images parseA [] "t" 200 1024 85 fsA =
        .ok (okPaths "t" docA docA.pageCount) docA.pageCount fsB logB .closed ∧
      (∀ n : Nat, fsB.read (pagePath "t" (n + 1)) = fsA.read (pagePath "t" (n + 1))) ∧
      fsB.read (pdfPath "t") = some (.pdf []) :=
  rerun_idempotent parseA [] "t" 200 1024 85 emptyFS docA rfl

/-- C10: the fatal open-failure path is not atomic with respect to the
output directory: when the error propagates, the output directory has
already been created and `uploaded.pdf` already holds the supplied bytes,
and the file is not deleted before re-raising — the directory keeps the
persisted upload even though it holds no page files. -/
theorem open_failure_leaves_upload
    (parsePdf : List Nat → Option PdfDoc) (bytes : List Nat) (tf : String)
    (dpi m q : Nat) (fs0 : FS) (h : parsePdf bytes = none) :
    convert_pdf_to_images parsePdf bytes tf dpi m q fs0 =
      .raised (initFS fs0 tf bytes)
        [.pdfSaved (pdfPath tf), .openError, .convertError] .closed ∧
    tf ∈ (initFS fs0 tf bytes).dirs ∧
    (initFS fs0 tf bytes).read (pdfPath tf) = some (.pdf bytes) ∧
    ∀ n : Nat, fs0.read (pagePath tf n) = none →
      (initFS fs0 tf bytes).read (pagePath tf n) = none := by
  refine ⟨convert_none_shape tf dpi m q fs0 h, initFS_mem_dirs fs0 tf bytes,
    initFS_read_pdf fs0 tf bytes, ?_⟩
  intro n hn
  rw [initFS_read_ne fs0 tf bytes (pagePath_ne_pdfPath tf n)]
  exact hn

/-- Witness for C10 on an oracle that rejects every byte sequence. -/
theorem open_failure_leaves_upload_witness :
    convert_pdf_to_images parseNone [7] "t" 200 1024 85 emptyFS =
      .raised (initFS emptyFS "t" [7])
        [.pdfSaved (pdfPath "t"), .openError, .convertError] .closed ∧
    "t" ∈ (initFS emptyFS "t" [7]).dirs ∧
    (initFS emptyFS "t" [7]).read (pdfPath "t") = some (.pdf [7]) ∧
    ∀ n : Nat, emptyFS.read (pagePath "t" n) = none →
      (initFS emptyFS "t" [7]).read (pagePath "t" n) = none :=
  open_failure_leaves_upload parseNone [7] "t" 200 1024 85 emptyFS rfl

end Flipbook
